import Mathlib

/-!
# Renderer core of up1415/Cluster

A shallow embedding of `src/Renderer/Renderer.cpp` (with the scene data declared in
`src/Scene/Scene.h`) and the properties its specification states about it.

* The C++ `float` type and the glm functions applied to it are external to the repository.
  The embedding is generic in a record `FloatOps F` of exactly the operations the source
  applies to floats; `F32` further down is an executable model of IEEE-754 binary32 with
  round-to-nearest-even, the arithmetic the program runs on.
* bgfx is external as well.  Every call the core makes into it (and every call of a
  subclass hook or of a shading subsystem) is recorded, in program order, as a `Call`;
  every value bgfx returns is an explicit argument of the operation that asks for it.
* An operation `op` of the source becomes `Renderer.op : ... → Renderer F → Renderer F × List (Call F)`.
-/

namespace Cluster

/-! ## Handles (bgfx) -/

/-- A bgfx handle: a 16-bit index. -/
structure Handle where
  idx : Nat
deriving DecidableEq, Repr

/-- The sentinel `BGFX_INVALID_HANDLE`, index `UINT16_MAX`. -/
def invalidHandle : Handle := ⟨65535⟩

/-- The test `bgfx::isValid`. -/
def isValid (h : Handle) : Bool := h.idx != 65535

/-! ## Float operations used by the source -/

/-- The operations of the C++ `float` type and of glm that `Renderer.cpp` uses. -/
structure FloatOps (F : Type) where
  /-- literal with an integer value: `0.0f`, `1.0f`, `-1.0f`, `2.0f`, `255.0f` -/
  ofInt : Int → F
  /-- literal `0.5f` -/
  half : F
  add : F → F → F
  sub : F → F → F
  mul : F → F → F
  div : F → F → F
  /-- `glm::sqrt` -/
  sqrt : F → F
  /-- `glm::abs` -/
  abs : F → F
  /-- `glm::max` on two scalars, from which `glm::compMax` is folded -/
  max : F → F → F
  /-- `glm::clamp x lo hi` -/
  clamp : F → F → F → F
  /-- `glm::round` -/
  round : F → F
  /-- conversion `float → uint8_t` of a component (the `glm::u8vec3` constructor) -/
  toU8 : F → Nat
  /-- `glm::convertSRGBToLinear` on one colour component -/
  convertSRGBToLinear : F → F

/-! ## Scene data (`Scene.h`) -/

structure Vec3 (F : Type) where
  x : F
  y : F
  z : F

structure Vec4 (F : Type) where
  x : F
  y : F
  z : F
  w : F

/-- The fields of `Camera` that the renderer core reads. -/
structure Camera (F : Type) where
  fov : F
  zNear : F
  zFar : F
  exposure : F

/-- The fields of `Scene` that the renderer core reads. -/
structure Scene (F : Type) where
  loaded : Bool
  minBounds : Vec3 F
  maxBounds : Vec3 F
  camera : Camera F
  skyColor : Vec4 F

/-! ## Backends and shader directories -/

/-- The enumerators of `bgfx::RendererType` that the switch in `shaderDir` lists. -/
inductive RendererType where
  | Noop
  | Direct3D9
  | Direct3D11
  | Direct3D12
  | Gnm
  | Metal
  | OpenGLES
  | OpenGL
  | Vulkan
  | Count
deriving DecidableEq, Repr

/-- `Renderer::shaderDir`, as a function of what `bgfx::getRendererType()` returns. -/
def shaderDir (t : RendererType) : String :=
  let path := "???"
  match t with
  | .Noop | .Direct3D9 => "shaders/dx9/"
  | .Direct3D11 | .Direct3D12 => "shaders/dx11/"
  | .Gnm => path
  | .Metal => "shaders/metal/"
  | .OpenGL => "shaders/glsl/"
  | .OpenGLES => "shaders/essl/"
  | .Vulkan => "shaders/spirv/"
  | .Count => path

/-! ## Renderer state and recorded calls -/

/-- The members of `Renderer` that the lifecycle and `render` read or write
(`viewMat`, `projMat` and the two subsystems carry no state the core inspects). -/
structure Renderer (F : Type) where
  scale : F
  width : Nat
  height : Nat
  clearColor : Nat
  time : F
  frameBuffer : Handle
  blitProgram : Handle
  blitSampler : Handle
  normalMatrixUniform : Handle
  exposureVecUniform : Handle
  sceneScaleVecUniform : Handle
  quadVB : Handle

structure PosTexCoord0Vertex (F : Type) where
  x : F
  y : F
  z : F
  u : F
  v : F

inductive TextureFormat where
  | RGBA16F
  | BGRA8
  | D16
  | D24S8
  | D32
deriving DecidableEq, Repr

/-- One call leaving the core, with the arguments the properties below speak about.
A hook call carries the core state the hook observes when it is entered. -/
inductive Call (F : Type) where
  | vertexInit
  | createUniform (name : String) (result : Handle)
  | createVertexBuffer (vertices : List (PosTexCoord0Vertex F)) (result : Handle)
  | loadProgram (vsName fsName : String) (result : Handle)
  | pbrInitialize
  | lightsInitialize
  | onInitialize (observed : Renderer F)
  | createTexture2D (format : TextureFormat) (result : Handle)
  | createFrameBuffer (attachments : Nat) (textures : List Handle) (result : Handle)
  | warn (message : String)
  | onReset (observed : Renderer F)
  | setUniform (uniform : Handle) (data : List F)
  | onRender (dt : F) (observed : Renderer F)
  | setViewName (view : Nat) (name : String)
  | setViewClearNone (view : Nat)
  | setViewRect (view x y width height : Nat)
  | setViewFrameBuffer (view : Nat) (target : Handle)
  | setStateWriteRGB
  | getTexture (frameBuffer : Handle) (result : Handle)
  | setTexture (stage : Nat) (sampler : Handle) (texture : Handle)
  | setVertexBuffer (stream : Nat) (vb : Handle)
  | submit (view : Nat) (program : Handle)
  | onShutdown (observed : Renderer F)
  | pbrShutdown
  | lightsShutdown
  | destroy (h : Handle)

/-- The constructor `Renderer::Renderer`.  `quadVB` is not in the initialiser list; its
initial content is whatever the caller passes as `quadVB0`. -/
def Renderer.new {F : Type} (A : FloatOps F) (quadVB0 : Handle) : Renderer F :=
  { scale := A.ofInt 1
    width := 0
    height := 0
    clearColor := 0
    time := A.ofInt 0
    frameBuffer := invalidHandle
    blitProgram := invalidHandle
    blitSampler := invalidHandle
    normalMatrixUniform := invalidHandle
    exposureVecUniform := invalidHandle
    sceneScaleVecUniform := invalidHandle
    quadVB := quadVB0 }

/-! ## `createFrameBuffer` and `reset` -/

/-- What bgfx answers during one execution of `Renderer::createFrameBuffer`. -/
structure FrameBufferEnv where
  /-- `isTextureValid` for the colour format -/
  colorFormatValid : Bool
  /-- `isTextureValid` for `D16` -/
  d16Valid : Bool
  /-- `isTextureValid` for `D24S8` -/
  d24s8Valid : Bool
  /-- result of `createTexture2D` for the colour attachment -/
  colorTexture : Handle
  /-- result of `createTexture2D` for the depth attachment -/
  depthTexture : Handle
  /-- result of `bgfx::createFrameBuffer` -/
  frameBuffer : Handle

/-- `Renderer::createFrameBuffer(hdr, depth)`: the handle returned and the calls made. -/
def Renderer.createFrameBuffer {F : Type} (env : FrameBufferEnv) (hdr depth : Bool) :
    Handle × List (Call F) :=
  let format := if hdr then TextureFormat.RGBA16F else TextureFormat.BGRA8
  let (textures, calls) : List Handle × List (Call F) :=
    if env.colorFormatValid then
      ([env.colorTexture], [Call.createTexture2D format env.colorTexture])
    else ([], [])
  let (textures, calls) : List Handle × List (Call F) :=
    if depth then
      let depthFormat :=
        if env.d16Valid then TextureFormat.D16
        else if env.d24s8Valid then TextureFormat.D24S8
        else TextureFormat.D32
      (textures ++ [env.depthTexture],
        calls ++ [Call.createTexture2D depthFormat env.depthTexture])
    else (textures, calls)
  let fb := env.frameBuffer
  let calls := calls ++ [Call.createFrameBuffer textures.length textures fb]
  let calls := if !isValid fb then calls ++ [Call.warn "Failed to create framebuffer"] else calls
  (fb, calls)

/-- `Renderer::reset(width, height)`. -/
def Renderer.reset {F : Type} (env : FrameBufferEnv) (width height : Nat) (r : Renderer F) :
    Renderer F × List (Call F) :=
  let (r, calls) : Renderer F × List (Call F) :=
    if !isValid r.frameBuffer then
      let (fb, cs) := Renderer.createFrameBuffer env true true
      ({ r with frameBuffer := fb }, cs)
    else (r, [])
  let r := { r with width := width, height := height }
  (r, calls ++ [Call.onReset r])

/-! ## `initialize` -/

/-- What bgfx and bigg answer during one execution of `Renderer::initialize`. -/
structure InitEnv where
  rendererType : RendererType
  originBottomLeft : Bool
  blitSampler : Handle
  normalMatrixUniform : Handle
  exposureVecUniform : Handle
  sceneScaleVecUniform : Handle
  quadVB : Handle
  blitProgram : Handle

/-- The six vertices of the full-screen quad as `initialize` fills them in. -/
def quadVertices {F : Type} (A : FloatOps F) (flipV : Bool) : List (PosTexCoord0Vertex F) :=
  let BOTTOM := A.ofInt (-1)
  let TOP := A.ofInt 1
  let LEFT := A.ofInt (-1)
  let RIGHT := A.ofInt 1
  let corners := [(BOTTOM, LEFT), (TOP, LEFT), (TOP, RIGHT),
                  (BOTTOM, LEFT), (TOP, RIGHT), (BOTTOM, RIGHT)]
  corners.map fun (x, y) =>
    let v := A.mul (A.add y (A.ofInt 1)) A.half
    { x := x
      y := y
      z := A.ofInt 0
      u := A.mul (A.add x (A.ofInt 1)) A.half
      v := if flipV then A.sub (A.ofInt 1) v else v }

/-- `Renderer::initialize`. -/
def Renderer.initialize {F : Type} (A : FloatOps F) (env : InitEnv) (r : Renderer F) :
    Renderer F × List (Call F) :=
  let r := { r with
    blitSampler := env.blitSampler
    normalMatrixUniform := env.normalMatrixUniform
    exposureVecUniform := env.exposureVecUniform
    sceneScaleVecUniform := env.sceneScaleVecUniform }
  let flipV := !env.originBottomLeft
  let r := { r with quadVB := env.quadVB }
  let vsName := shaderDir env.rendererType ++ "vs_tonemap.bin"
  let fsName := shaderDir env.rendererType ++ "fs_tonemap.bin"
  let r := { r with blitProgram := env.blitProgram }
  (r, [ Call.vertexInit,
        Call.createUniform "s_texColor" env.blitSampler,
        Call.createUniform "u_normalMatrix" env.normalMatrixUniform,
        Call.createUniform "u_exposureVec" env.exposureVecUniform,
        Call.createUniform "u_sceneScaleVec" env.sceneScaleVecUniform,
        Call.createVertexBuffer (quadVertices A flipV) env.quadVB,
        Call.loadProgram vsName fsName env.blitProgram,
        Call.pbrInitialize,
        Call.lightsInitialize,
        Call.onInitialize r ])

/-! ## `render` and `blitToScreen` -/

/-- `glm::compMax` of a three-component vector. -/
def compMax {F : Type} (A : FloatOps F) (v : Vec3 F) : F :=
  A.max (A.max v.x v.y) v.z

/-- The largest component-wise extent `compMax(abs(maxBounds - minBounds))`. -/
def largestExtent {F : Type} (A : FloatOps F) (scene : Scene F) : F :=
  compMax A
    { x := A.abs (A.sub scene.maxBounds.x scene.minBounds.x)
      y := A.abs (A.sub scene.maxBounds.y scene.minBounds.y)
      z := A.abs (A.sub scene.maxBounds.z scene.minBounds.z) }

/-- The right-hand side of the assignment to `scale` for a loaded scene. -/
def sceneScale {F : Type} (A : FloatOps F) (scene : Scene F) : F :=
  A.mul (A.div (A.div (A.ofInt 1) (largestExtent A scene)) (A.sqrt (A.ofInt 2)))
    scene.camera.zFar

/-- One component of `result`: the sky component made linear, clamped, scaled to 255,
rounded and stored in a `uint8_t`. -/
def skyChannel {F : Type} (A : FloatOps F) (c : F) : Nat :=
  A.toU8 (A.round (A.mul (A.clamp (A.convertSRGBToLinear c) (A.ofInt 0) (A.ofInt 1))
    (A.ofInt 255))) % 256

/-- The expression `(result[0] << 24) | (result[1] << 16) | (result[2] << 8) | 255`
stored in the `uint32_t` member `clearColor`. -/
def packClearColor (r g b : Nat) : Nat :=
  ((r <<< 24) ||| (g <<< 16) ||| (b <<< 8) ||| 255) % 4294967296

/-- `Renderer::blitToScreen(view)`; `frameBufferTexture` is what `bgfx::getTexture` returns. -/
def Renderer.blitToScreen {F : Type} (A : FloatOps F) (scene : Scene F)
    (frameBufferTexture : Handle) (view : Nat) (r : Renderer F) : List (Call F) :=
  let exposure := [if scene.loaded then scene.camera.exposure else A.ofInt 1,
                   A.ofInt 0, A.ofInt 0, A.ofInt 0]
  [ Call.setViewName view "Blit to screen + tonemapping",
    Call.setViewClearNone view,
    Call.setViewRect view 0 0 r.width r.height,
    Call.setViewFrameBuffer view invalidHandle,
    Call.setStateWriteRGB,
    Call.getTexture r.frameBuffer frameBufferTexture,
    Call.setTexture 0 r.blitSampler frameBufferTexture,
    Call.setUniform r.exposureVecUniform exposure,
    Call.setVertexBuffer 0 r.quadVB,
    Call.submit view r.blitProgram ]

/-- `Renderer::render(dt)` on the scene the renderer points to.  The call
`setUniform(sceneScaleVecUniform, &scale)` is recorded with the float stored at the
address it passes. -/
def Renderer.render {F : Type} (A : FloatOps F) (scene : Scene F) (frameBufferTexture : Handle)
    (dt : F) (r : Renderer F) : Renderer F × List (Call F) :=
  let r := { r with time := A.add r.time dt }
  let (r, calls) : Renderer F × List (Call F) :=
    if scene.loaded then
      let r := { r with scale := sceneScale A scene }
      let calls := [Call.setUniform r.sceneScaleVecUniform [r.scale]]
      let result : Vec3 Nat :=
        { x := skyChannel A scene.skyColor.x
          y := skyChannel A scene.skyColor.y
          z := skyChannel A scene.skyColor.z }
      ({ r with clearColor := packClearColor result.x result.y result.z }, calls)
    else
      ({ r with scale := A.ofInt 1, clearColor := 0x303030FF }, [])
  (r, calls ++ [Call.onRender dt r] ++ Renderer.blitToScreen A scene frameBufferTexture 199 r)

/-! ## `shutdown` -/

/-- `Renderer::shutdown`. -/
def Renderer.shutdown {F : Type} (r : Renderer F) : Renderer F × List (Call F) :=
  let calls : List (Call F) :=
    [ Call.onShutdown r,
      Call.pbrShutdown,
      Call.lightsShutdown,
      Call.destroy r.blitProgram,
      Call.destroy r.blitSampler,
      Call.destroy r.normalMatrixUniform,
      Call.destroy r.exposureVecUniform,
      Call.destroy r.sceneScaleVecUniform,
      Call.destroy r.quadVB ]
  let calls := if isValid r.frameBuffer then calls ++ [Call.destroy r.frameBuffer] else calls
  ({ r with
      blitProgram := invalidHandle
      blitSampler := invalidHandle
      normalMatrixUniform := invalidHandle
      exposureVecUniform := invalidHandle
      sceneScaleVecUniform := invalidHandle
      quadVB := invalidHandle
      frameBuffer := invalidHandle }, calls)

/-! ## IEEE-754 binary32 -/


/-- An IEEE-754 binary32 datum, the C++ `float` of the platforms the program runs on,
with the default rounding, to nearest and ties to even.  Every finite binary32 value is
a multiple of `2^-149`; `fin neg mag` stands for `(-1)^neg * mag * 2^-149`. -/
inductive F32 where
  | nan
  | inf (neg : Bool)
  | fin (neg : Bool) (mag : Nat)
deriving DecidableEq, Repr

namespace F32

/-- Halve `n` until it is below 2, counting the steps; `fuel` bounds the recursion. -/
def log2Fuel : Nat → Nat → Nat
  | 0, _ => 0
  | fuel + 1, n => if n < 2 then 0 else log2Fuel fuel (n / 2) + 1

/-- Position of the leading one bit (0 for 0). -/
def ilog2 (n : Nat) : Nat := log2Fuel n n

/-- Set the bits of the root from bit `b - 1` downwards while the square stays below `n`. -/
def isqrtAux : Nat → Nat → Nat → Nat
  | 0, _, r => r
  | b + 1, n, r =>
    let c := r ||| (1 <<< b)
    if c * c ≤ n then isqrtAux b n c else isqrtAux b n r

/-- Integer square root, found bit by bit from the top. -/
def isqrt (n : Nat) : Nat := isqrtAux (ilog2 n / 2 + 1) n 0

/-- The magnitude `1.0` in units of `2^-149`. -/
def one : Nat := 2 ^ 149

/-- The least magnitude that no longer is a finite binary32 value: `2^128`. -/
def overflow : Nat := 2 ^ 277

/-- Round the non-negative rational `num / den` to the nearest integer, a tie to the
even one. -/
def roundNearestEven (num den : Nat) : Nat :=
  let m := num / den
  let rem := num % den
  if den < 2 * rem ∨ (2 * rem = den ∧ m % 2 = 1) then m + 1 else m

/-- Round the non-negative rational `num / den` (in units of `2^-149`) to the nearest
magnitude with a 24-bit significand, ties to the even significand.  Below `2^24` units
(subnormal numbers and the first binade) the spacing is one unit. -/
def roundUnits (num den : Nat) : Nat :=
  let sh := ilog2 (num / den) - 23
  roundNearestEven num (den * 2 ^ sh) * 2 ^ sh

/-- The binary32 value nearest to `(-1)^neg * num / den` units. -/
def ofRatio (neg : Bool) (num den : Nat) : F32 :=
  let k := roundUnits num den
  if overflow ≤ k then inf neg else fin neg k

/-- The binary32 value of an integer literal. -/
def ofInt (i : Int) : F32 := ofRatio (decide (i < 0)) (i.natAbs * one) 1

/-- The value `0.5f`. -/
def half : F32 := fin false (2 ^ 148)

/-- Unary minus: the sign flips. -/
def neg : F32 → F32
  | nan => nan
  | inf s => inf (!s)
  | fin s k => fin (!s) k

/-- A finite value as a signed number of units. -/
def signed (s : Bool) (k : Nat) : Int := if s then -(k : Int) else (k : Int)

/-- Addition: the exact sum, rounded; an exact zero sum is `-0` only for `-0 + -0`. -/
def add : F32 → F32 → F32
  | nan, _ => nan
  | _, nan => nan
  | inf s, inf t => if s = t then inf s else nan
  | inf s, fin _ _ => inf s
  | fin _ _, inf t => inf t
  | fin s a, fin t b =>
    let sum := signed s a + signed t b
    if sum = 0 then fin (s && t) 0
    else ofRatio (decide (sum < 0)) sum.natAbs 1

/-- Subtraction. -/
def sub (x y : F32) : F32 := add x (neg y)

/-- Multiplication: the exact product, rounded. -/
def mul : F32 → F32 → F32
  | nan, _ => nan
  | _, nan => nan
  | inf s, inf t => inf (xor s t)
  | inf s, fin t b => if b = 0 then nan else inf (xor s t)
  | fin s a, inf t => if a = 0 then nan else inf (xor s t)
  | fin s a, fin t b => ofRatio (xor s t) (a * b) one

/-- Division: the exact quotient, rounded. -/
def div : F32 → F32 → F32
  | nan, _ => nan
  | _, nan => nan
  | inf _, inf _ => nan
  | inf s, fin t _ => inf (xor s t)
  | fin s _, inf t => fin (xor s t) 0
  | fin s a, fin t b =>
    if b = 0 then (if a = 0 then nan else inf (xor s t))
    else ofRatio (xor s t) (a * one) b

/-- Correctly rounded square root. -/
def sqrt : F32 → F32
  | nan => nan
  | inf s => if s then nan else inf false
  | fin s k =>
    if k = 0 then fin s 0
    else if s then nan
    else
      let n := k * one
      let r := isqrt n
      let sh := ilog2 r - 23
      let m := r / 2 ^ sh
      let mid := (2 * m + 1) * 2 ^ sh
      let up := decide (mid * mid < 4 * n) || (decide (mid * mid = 4 * n) && decide (m % 2 = 1))
      fin false ((if up then m + 1 else m) * 2 ^ sh)

/-- The comparison `x < y` of C++. -/
def lt : F32 → F32 → Bool
  | nan, _ => false
  | _, nan => false
  | inf s, inf t => s && !t
  | inf s, fin _ _ => s
  | fin _ _, inf t => !t
  | fin s a, fin t b => decide (signed s a < signed t b)

/-- The comparison `x <= y` of C++. -/
def le : F32 → F32 → Bool
  | nan, _ => false
  | _, nan => false
  | inf s, inf t => s || !t
  | inf s, fin _ _ => s
  | fin _ _, inf t => !t
  | fin s a, fin t b => decide (signed s a ≤ signed t b)

/-- Zero, a positive finite value or plus infinity. -/
def isNonNeg : F32 → Bool
  | inf false => true
  | fin false _ => true
  | _ => false

/-- glm: `abs(x) = x >= 0 ? x : -x`. -/
def abs (x : F32) : F32 := if le (fin false 0) x then x else neg x

/-- glm: `max(x, y) = (x < y) ? y : x`. -/
def max (x y : F32) : F32 := if lt x y then y else x

/-- glm: `min(x, y) = (y < x) ? y : x`. -/
def min (x y : F32) : F32 := if lt y x then y else x

/-- glm: `clamp(x, lo, hi) = min(max(x, lo), hi)`. -/
def clamp (x lo hi : F32) : F32 := min (max x lo) hi

/-- Round to the nearest integer, halfway cases away from zero (`std::round`). -/
def round : F32 → F32
  | nan => nan
  | inf s => inf s
  | fin s k => if overflow ≤ k then fin s k else fin s ((k + 2 ^ 148) / one * one)

/-- Conversion to `uint8_t`: the integer part.  The language leaves the result open when
the integer part is not in `0..255`; the model wraps it, and gives 0 for negative and
non-finite values. -/
def toU8 : F32 → Nat
  | nan => 0
  | inf _ => 0
  | fin s k => if s then 0 else (k / one) % 256

/-- Decode a binary32 bit pattern. -/
def ofBits (bits : Nat) : F32 :=
  let s := decide ((bits / 2 ^ 31) % 2 = 1)
  let e := (bits / 2 ^ 23) % 256
  let f := bits % 2 ^ 23
  if e = 255 then (if f = 0 then inf s else nan)
  else if e = 0 then fin s f
  else fin s ((2 ^ 23 + f) * 2 ^ (e - 1))

end F32

/-- The float operations of the program on binary32; `srgb` is what
`glm::convertSRGBToLinear` computes on one component. -/
def f32Ops (srgb : F32 → F32) : FloatOps F32 :=
  { ofInt := F32.ofInt
    half := F32.half
    add := F32.add
    sub := F32.sub
    mul := F32.mul
    div := F32.div
    sqrt := F32.sqrt
    abs := F32.abs
    max := F32.max
    clamp := F32.clamp
    round := F32.round
    toU8 := F32.toU8
    convertSRGBToLinear := srgb }

/-! ## Traces of the host protocol -/

/-- A call that creates a texture or a framebuffer. -/
def Call.isCreation {F : Type} : Call F → Bool
  | .createTexture2D _ _ => true
  | .createFrameBuffer _ _ _ => true
  | _ => false

/-- A call of `bgfx::createFrameBuffer` that returned a valid handle. -/
def Call.createdValidFrameBuffer {F : Type} : Call F → Bool
  | .createFrameBuffer _ _ h => isValid h
  | _ => false

/-- A call of `bgfx::destroy`. -/
def Call.isDestroy {F : Type} : Call F → Bool
  | .destroy _ => true
  | _ => false

/-- A call of `bgfx::destroy` on an invalid handle. -/
def Call.destroysInvalid {F : Type} : Call F → Bool
  | .destroy h => !isValid h
  | _ => false

/-- A call of the `onRender` hook. -/
def Call.isOnRender {F : Type} : Call F → Bool
  | .onRender _ _ => true
  | _ => false

/-- A call of `bgfx::submit`. -/
def Call.isSubmit {F : Type} : Call F → Bool
  | .submit _ _ => true
  | _ => false

/-- The call `pbr.shutdown()`. -/
def Call.isPbrShutdown {F : Type} : Call F → Bool
  | .pbrShutdown => true
  | _ => false

/-- The call `lights.shutdown()`. -/
def Call.isLightsShutdown {F : Type} : Call F → Bool
  | .lightsShutdown => true
  | _ => false

/-- The call `pbr.initialize()`. -/
def Call.isPbrInitialize {F : Type} : Call F → Bool
  | .pbrInitialize => true
  | _ => false

/-- The call `lights.initialize()`. -/
def Call.isLightsInitialize {F : Type} : Call F → Bool
  | .lightsInitialize => true
  | _ => false

/-- For the binding and submission calls of `render` and `blitToScreen`: the handle of
the core that the call uses is valid.  Every other call counts as fine. -/
def Call.usesValid {F : Type} : Call F → Bool
  | .getTexture fb _ => isValid fb
  | .setTexture _ sampler _ => isValid sampler
  | .setUniform u _ => isValid u
  | .setVertexBuffer _ vb => isValid vb
  | .submit _ program => isValid program
  | _ => true

/-- One step the host takes between `initialize` and `shutdown`. -/
inductive Op (F : Type) where
  | reset (env : FrameBufferEnv) (width height : Nat)
  | render (scene : Scene F) (frameBufferTexture : Handle) (dt : F)

/-- Run host steps in order, collecting the calls. -/
def runOps {F : Type} (A : FloatOps F) : List (Op F) → Renderer F → Renderer F × List (Call F)
  | [], r => (r, [])
  | .reset env w h :: ops, r =>
    let (r1, c1) := Renderer.reset env w h r
    let (r2, c2) := runOps A ops r1
    (r2, c1 ++ c2)
  | .render scene tex dt :: ops, r =>
    let (r1, c1) := Renderer.render A scene tex dt r
    let (r2, c2) := runOps A ops r1
    (r2, c1 ++ c2)

/-- Run a sequence of `reset` calls, each with the answers of bgfx, the width and the
height it gets. -/
def resetAll {F : Type} : List (FrameBufferEnv × Nat × Nat) → Renderer F →
    Renderer F × List (Call F)
  | [], r => (r, [])
  | (env, w, h) :: rest, r =>
    let (r1, c1) := Renderer.reset env w h r
    let (r2, c2) := resetAll rest r1
    (r2, c1 ++ c2)

/-- Scan a trace: after the first `createFrameBuffer` that returned a valid handle, no
texture or framebuffer is created. -/
def noCreationAfterValid {F : Type} : List (Call F) → Bool
  | [] => true
  | c :: rest =>
    if c.createdValidFrameBuffer then rest.all (fun c => !c.isCreation)
    else noCreationAfterValid rest

/-- The calls of one life of a renderer: construction, `initialize`, the host steps,
`shutdown`. -/
def lifeCalls {F : Type} (A : FloatOps F) (quadVB0 : Handle) (env : InitEnv) (ops : List (Op F)) :
    List (Call F) :=
  let (r1, c1) := Renderer.initialize A env (Renderer.new A quadVB0)
  let (r2, c2) := runOps A ops r1
  c1 ++ c2 ++ (Renderer.shutdown r2).2

/-- The handles that `initialize` creates and the frame uses are valid. -/
def Renderer.coreValid {F : Type} (r : Renderer F) : Prop :=
  isValid r.blitProgram = true ∧ isValid r.blitSampler = true ∧
  isValid r.exposureVecUniform = true ∧ isValid r.sceneScaleVecUniform = true ∧
  isValid r.quadVB = true

/-- Every creation in `initialize` returned a valid handle. -/
def InitEnv.allValid (env : InitEnv) : Bool :=
  isValid env.blitSampler && isValid env.normalMatrixUniform && isValid env.exposureVecUniform
    && isValid env.sceneScaleVecUniform && isValid env.quadVB && isValid env.blitProgram

/-- The framebuffer creation of a `reset` step returns a valid handle. -/
def Op.creationValid {F : Type} : Op F → Bool
  | .reset env _ _ => isValid env.frameBuffer
  | .render _ _ _ => true

/-- The host steps do not begin with a `render`. -/
def startsWithReset {F : Type} : List (Op F) → Bool
  | .render _ _ _ :: _ => false
  | _ => true

/-! ## Sample data -/

/-- Answers of bgfx in which every creation succeeds. -/
def sampleInitEnv : InitEnv :=
  { rendererType := .OpenGL
    originBottomLeft := true
    blitSampler := ⟨0⟩
    normalMatrixUniform := ⟨1⟩
    exposureVecUniform := ⟨2⟩
    sceneScaleVecUniform := ⟨3⟩
    quadVB := ⟨0⟩
    blitProgram := ⟨0⟩ }

/-- Answers of bgfx in which the framebuffer creation succeeds. -/
def sampleFrameBufferEnv : FrameBufferEnv :=
  { colorFormatValid := true
    d16Valid := true
    d24s8Valid := true
    colorTexture := ⟨0⟩
    depthTexture := ⟨1⟩
    frameBuffer := ⟨0⟩ }

/-- A scene whose bounding box is the cube from `lo` to `hi` on every axis, with the given
far plane and the same value `sky` in the three sky colour components. -/
def sampleScene (loaded : Bool) (lo hi zFar sky : F32) : Scene F32 :=
  { loaded := loaded
    minBounds := ⟨lo, lo, lo⟩
    maxBounds := ⟨hi, hi, hi⟩
    camera := { fov := F32.ofInt 60, zNear := F32.half, zFar := zFar, exposure := F32.ofInt 1 }
    skyColor := ⟨sky, sky, sky, F32.ofInt 1⟩ }

/-- Answers of bgfx in which the framebuffer creation fails. -/
def failingFrameBufferEnv : FrameBufferEnv :=
  { sampleFrameBufferEnv with frameBuffer := invalidHandle }

/-- The scene of the end-to-end example: bounds `(-1,-1,-1)` to `(1,1,1)`, far plane 100. -/
def exampleScene : Scene F32 :=
  sampleScene true (F32.ofInt (-1)) (F32.ofInt 1) (F32.ofInt 100) (F32.ofInt 0)

/-- A renderer as constructed and initialised with `sampleInitEnv`. -/
def sampleRenderer : Renderer F32 :=
  ( Renderer.initialize (f32Ops id) sampleInitEnv (Renderer.new (f32Ops id) ⟨7⟩)).1

/-! # Properties -/

/-! ## Backend shader directory -/

/-- C7: `shaderDir` is a total function of the backend identifier with the table of the
specification: every enumerated backend maps to a path, and exactly `Gnm` and `Count`
map to the sentinel "???". -/
theorem shaderDir_table :
    shaderDir .Noop = "shaders/dx9/" ∧ shaderDir .Direct3D9 = "shaders/dx9/" ∧
    shaderDir .Direct3D11 = "shaders/dx11/" ∧ shaderDir .Direct3D12 = "shaders/dx11/" ∧
    shaderDir .Metal = "shaders/metal/" ∧ shaderDir .OpenGL = "shaders/glsl/" ∧
    shaderDir .OpenGLES = "shaders/essl/" ∧ shaderDir .Vulkan = "shaders/spirv/" ∧
    (∀ t : RendererType, shaderDir t = "???" ↔ (t = .Gnm ∨ t = .Count)) ∧
    (∀ t : RendererType, shaderDir t ∈
      ["shaders/dx9/", "shaders/dx11/", "shaders/metal/", "shaders/glsl/", "shaders/essl/",
       "shaders/spirv/", "???"]) := by
  refine ⟨rfl, rfl, rfl, rfl, rfl, rfl, rfl, rfl, ?_, ?_⟩
  · intro t
    cases t <;> simp [shaderDir]
  · intro t
    cases t <;> simp [shaderDir]

/-! ## The frame: scale, clear colour, order of calls -/

/-- C1: for a loaded scene, whatever the renderer state and `dt`, `render` leaves
`scale = 1 / e / sqrt 2 * zFar` (evaluated left to right in the float arithmetic of the
program), where `e` is the largest component of `abs (maxBounds - minBounds)`. -/
theorem render_scale_loaded {F : Type} (A : FloatOps F) (scene : Scene F) (tex : Handle) (dt : F)
    (r : Renderer F) (hloaded : scene.loaded = true) :
    (Renderer.render A scene tex dt r).1.scale =
      A.mul
        (A.div
          (A.div (A.ofInt 1)
            (A.max
              (A.max (A.abs (A.sub scene.maxBounds.x scene.minBounds.x))
                (A.abs (A.sub scene.maxBounds.y scene.minBounds.y)))
              (A.abs (A.sub scene.maxBounds.z scene.minBounds.z))))
          (A.sqrt (A.ofInt 2)))
        scene.camera.zFar := by
  simp [Renderer.render, hloaded, sceneScale, largestExtent, compMax]

set_option maxRecDepth 100000 in
/-- C1 at the end-to-end example: bounds `(-1,-1,-1)` to `(1,1,1)` and far plane 100 give
the binary32 value `0x420D6BDE`, that is 35.35534, for `1/2/sqrt 2 * 100`. -/
theorem render_scale_loaded_witness :
    exampleScene.loaded = true ∧
    (Renderer.render (f32Ops id) exampleScene ⟨0⟩ F32.half sampleRenderer).1.scale =
      F32.ofBits 0x420D6BDE :=
  ⟨rfl, (render_scale_loaded (f32Ops id) exampleScene ⟨0⟩ F32.half sampleRenderer rfl).trans
    (by decide!)⟩

/-- C3: when the scene is not loaded, `render` leaves `scale = 1.0f` and
`clearColor = 0x303030FF`, whatever the renderer state, `dt` and the other scene fields. -/
theorem render_not_loaded {F : Type} (A : FloatOps F) (scene : Scene F) (tex : Handle) (dt : F)
    (r : Renderer F) (hloaded : scene.loaded = false) :
    (Renderer.render A scene tex dt r).1.scale = A.ofInt 1 ∧
    (Renderer.render A scene tex dt r).1.clearColor = 0x303030FF := by
  simp [Renderer.render, hloaded]

/-- C3 at a concrete input: an unloaded scene that still carries the bounds, far plane
and a white sky of an earlier scene. -/
theorem render_not_loaded_witness :
    (sampleScene false (F32.ofInt (-1)) (F32.ofInt 1) (F32.ofInt 100) (F32.ofInt 1)).loaded
      = false ∧
    (Renderer.render (f32Ops id)
      (sampleScene false (F32.ofInt (-1)) (F32.ofInt 1) (F32.ofInt 100) (F32.ofInt 1))
      ⟨0⟩ F32.half sampleRenderer).1.scale = (f32Ops id).ofInt 1 ∧
    (Renderer.render (f32Ops id)
      (sampleScene false (F32.ofInt (-1)) (F32.ofInt 1) (F32.ofInt 100) (F32.ofInt 1))
      ⟨0⟩ F32.half sampleRenderer).1.clearColor = 0x303030FF :=
  ⟨rfl, render_not_loaded (f32Ops id)
    (sampleScene false (F32.ofInt (-1)) (F32.ofInt 1) (F32.ofInt 100) (F32.ofInt 1))
    ⟨0⟩ F32.half sampleRenderer rfl⟩

/-- C8: `render dt` adds `dt` to `time`, sets `scale` and `clearColor` from the scene, then
calls `onRender dt` once, then runs the blit on view 199 with one submission.  The state
seen by `onRender` is the state `render` ends with: it holds the new time, scale and clear
colour.  No submission and no second `onRender` happen before the hook. -/
theorem render_order {F : Type} (A : FloatOps F) (scene : Scene F) (tex : Handle) (dt : F)
    (r : Renderer F) :
    let r1 := (Renderer.render A scene tex dt r).1
    let calls := (Renderer.render A scene tex dt r).2
    r1.time = A.add r.time dt ∧
    r1.scale = (if scene.loaded then sceneScale A scene else A.ofInt 1) ∧
    r1.clearColor =
      (if scene.loaded then
        packClearColor (skyChannel A scene.skyColor.x) (skyChannel A scene.skyColor.y)
          (skyChannel A scene.skyColor.z)
       else 0x303030FF) ∧
    (∃ pre : List (Call F),
      calls = pre ++ Call.onRender dt r1 :: Renderer.blitToScreen A scene tex 199 r1 ∧
      pre.all (fun c => !c.isOnRender && !c.isSubmit) = true) ∧
    (Renderer.blitToScreen A scene tex 199 r1).getLast? = some (Call.submit 199 r1.blitProgram) ∧
    calls.countP Call.isOnRender = 1 ∧
    calls.countP Call.isSubmit = 1 := by
  cases hl : scene.loaded
  · refine ⟨?_, ?_, ?_, ⟨[], ?_, ?_⟩, ?_, ?_, ?_⟩ <;>
      simp [Renderer.render, hl, Renderer.blitToScreen, Call.isOnRender, Call.isSubmit,
        List.countP_cons]
  · refine ⟨?_, ?_, ?_, ⟨[Call.setUniform r.sceneScaleVecUniform [sceneScale A scene]], ?_, ?_⟩,
      ?_, ?_, ?_⟩ <;>
      simp [Renderer.render, hl, Renderer.blitToScreen, Call.isOnRender, Call.isSubmit,
        List.countP_cons]

/-! ## Lifecycle -/

/-- C6 (the code at the failing input): after a first `shutdown`, a second `shutdown`
still calls `destroy` six times, each time on the invalid handle; only the framebuffer
is guarded. -/
theorem shutdown_twice_destroys_invalid {F : Type} (r : Renderer F) :
    let r1 := (Renderer.shutdown r).1
    (Renderer.shutdown r1).2 =
      [Call.onShutdown r1, Call.pbrShutdown, Call.lightsShutdown,
       Call.destroy invalidHandle, Call.destroy invalidHandle, Call.destroy invalidHandle,
       Call.destroy invalidHandle, Call.destroy invalidHandle, Call.destroy invalidHandle] ∧
    (Renderer.shutdown r1).2.countP Call.destroysInvalid = 6 := by
  simp [Renderer.shutdown, isValid, invalidHandle, Call.destroysInvalid, List.countP_cons]

/-- C9 (as stated, refuted): in the calls of `shutdown` the PBR subsystem is shut down
second and the Lights subsystem third, so Lights is not shut down before PBR. -/
theorem shutdown_order_counterexample :
    List.findIdx Call.isPbrShutdown (Renderer.shutdown sampleRenderer).2 = 1 ∧
    List.findIdx Call.isLightsShutdown (Renderer.shutdown sampleRenderer).2 = 2 ∧
    ¬ (List.findIdx Call.isLightsShutdown (Renderer.shutdown sampleRenderer).2 <
        List.findIdx Call.isPbrShutdown (Renderer.shutdown sampleRenderer).2) := by
  decide

/-- C9 (amended): `initialize` initialises PBR and then Lights as its last two calls
before `onInitialize`, and `shutdown` shuts them down in the same order, PBR and then
Lights, right after `onShutdown` and before every `destroy`. -/
theorem shutdown_same_order {F : Type} (A : FloatOps F) (env : InitEnv) (r0 r : Renderer F) :
    (∃ pre : List (Call F),
      ( Renderer.initialize A env r0).2 =
        pre ++ [Call.pbrInitialize, Call.lightsInitialize,
                Call.onInitialize ( Renderer.initialize A env r0).1] ∧
      pre.all (fun c => !c.isPbrInitialize && !c.isLightsInitialize) = true) ∧
    (∃ rest : List (Call F),
      (Renderer.shutdown r).2 =
        Call.onShutdown r :: Call.pbrShutdown :: Call.lightsShutdown :: rest ∧
      rest.all Call.isDestroy = true) := by
  constructor
  · exact ⟨( Renderer.initialize A env r0).2.take 7, rfl,
      by simp [ Renderer.initialize, Call.isPbrInitialize, Call.isLightsInitialize]⟩
  · by_cases h : isValid r.frameBuffer = true
    · exact ⟨_, by simp [Renderer.shutdown, h]; rfl, by simp [Call.isDestroy]⟩
    · exact ⟨_, by simp [Renderer.shutdown, h]; rfl, by simp [Call.isDestroy]⟩

/-! ## Lazy framebuffer creation -/

theorem reset_valid_step {F : Type} (env : FrameBufferEnv) (w h : Nat) (r : Renderer F)
    (hv : isValid r.frameBuffer = true) :
    (Renderer.reset env w h r).2 = [Call.onReset (Renderer.reset env w h r).1] ∧
    (Renderer.reset env w h r).1.frameBuffer = r.frameBuffer := by
  simp [Renderer.reset, hv]

theorem resetAll_valid {F : Type} (resets : List (FrameBufferEnv × Nat × Nat)) :
    ∀ r : Renderer F, isValid r.frameBuffer = true →
      (resetAll resets r).2.all (fun c => !c.isCreation) = true ∧
      (resetAll resets r).1.frameBuffer = r.frameBuffer := by
  induction resets with
  | nil => intro r _; simp [resetAll]
  | cons e rest ih =>
    intro r hv
    obtain ⟨env, w, h⟩ := e
    have h1 := reset_valid_step env w h r hv
    have h2 := ih (Renderer.reset env w h r).1 (by rw [h1.2]; exact hv)
    simp only [resetAll, List.all_append, Bool.and_eq_true]
    refine ⟨⟨?_, h2.1⟩, h2.2.trans h1.2⟩
    rw [h1.1]
    simp [Call.isCreation]

theorem createdValid_isCreation {F : Type} (c : Call F)
    (h : c.createdValidFrameBuffer = true) : c.isCreation = true := by
  cases c <;> simp_all [Call.createdValidFrameBuffer, Call.isCreation]

theorem noCreationAfterValid_of_all {F : Type} (l : List (Call F))
    (h : l.all (fun c => !c.isCreation) = true) : noCreationAfterValid l = true := by
  induction l with
  | nil => rfl
  | cons c rest ih =>
    simp only [List.all_cons, Bool.and_eq_true, Bool.not_eq_true'] at h
    have hc : c.createdValidFrameBuffer = false := by
      cases hcv : c.createdValidFrameBuffer
      · rfl
      · have := createdValid_isCreation c hcv
        rw [h.1] at this
        exact absurd this (by decide)
    simp only [noCreationAfterValid, hc]
    exact ih h.2

theorem noCreationAfterValid_append {F : Type} (a b : List (Call F))
    (ha : a.all (fun c => !c.createdValidFrameBuffer) = true) :
    noCreationAfterValid (a ++ b) = noCreationAfterValid b := by
  induction a with
  | nil => rfl
  | cons c rest ih =>
    simp only [List.all_cons, Bool.and_eq_true, Bool.not_eq_true'] at ha
    simp only [List.cons_append, noCreationAfterValid, ha.1]
    exact ih ha.2

theorem noCreationAfterValid_split {F : Type} (pre : List (Call F)) :
    ∀ (post : List (Call F)) (n : Nat) (tex : List Handle) (h : Handle),
      noCreationAfterValid (pre ++ Call.createFrameBuffer n tex h :: post) = true →
      isValid h = true → post.all (fun c => !c.isCreation) = true := by
  induction pre with
  | nil =>
    intro post n tex h hl hv
    simpa [noCreationAfterValid, Call.createdValidFrameBuffer, hv] using hl
  | cons c pre ih =>
    intro post n tex h hl hv
    cases hc : c.createdValidFrameBuffer
    · simp only [List.cons_append, noCreationAfterValid, hc] at hl
      exact ih post n tex h hl hv
    · rw [List.cons_append] at hl
      simp only [noCreationAfterValid, hc, if_true] at hl
      rw [List.all_append, List.all_cons] at hl
      simp only [Bool.and_eq_true] at hl
      exact hl.2.2

theorem createFrameBuffer_calls {F : Type} (env : FrameBufferEnv) :
    ∃ (pre post : List (Call F)) (n : Nat) (tex : List Handle),
      (Renderer.createFrameBuffer env true true : Handle × List (Call F)) =
        (env.frameBuffer, pre ++ Call.createFrameBuffer n tex env.frameBuffer :: post) ∧
      pre.all (fun c => !c.createdValidFrameBuffer) = true ∧
      post.all (fun c => !c.isCreation) = true := by
  let df : TextureFormat :=
    if env.d16Valid then TextureFormat.D16
    else if env.d24s8Valid then TextureFormat.D24S8 else TextureFormat.D32
  cases hc : env.colorFormatValid <;> cases hf : isValid env.frameBuffer
  · refine ⟨[Call.createTexture2D df env.depthTexture], [Call.warn "Failed to create framebuffer"],
      1, [env.depthTexture], ?_, ?_, ?_⟩ <;>
      simp [Renderer.createFrameBuffer, hc, hf, df, Call.createdValidFrameBuffer, Call.isCreation]
  · refine ⟨[Call.createTexture2D df env.depthTexture], [], 1, [env.depthTexture], ?_, ?_, ?_⟩ <;>
      simp [Renderer.createFrameBuffer, hc, hf, df, Call.createdValidFrameBuffer, Call.isCreation]
  · refine ⟨[Call.createTexture2D .RGBA16F env.colorTexture,
        Call.createTexture2D df env.depthTexture], [Call.warn "Failed to create framebuffer"],
      2, [env.colorTexture, env.depthTexture], ?_, ?_, ?_⟩ <;>
      simp [Renderer.createFrameBuffer, hc, hf, df, Call.createdValidFrameBuffer, Call.isCreation]
  · refine ⟨[Call.createTexture2D .RGBA16F env.colorTexture,
        Call.createTexture2D df env.depthTexture], [], 2, [env.colorTexture, env.depthTexture],
      ?_, ?_, ?_⟩ <;>
      simp [Renderer.createFrameBuffer, hc, hf, df, Call.createdValidFrameBuffer, Call.isCreation]

theorem reset_invalid_calls {F : Type} (env : FrameBufferEnv) (w h : Nat) (r : Renderer F)
    (hv : ¬ isValid r.frameBuffer = true) :
    ∃ (pre post : List (Call F)) (n : Nat) (tex : List Handle),
      (Renderer.reset env w h r).2 =
        pre ++ Call.createFrameBuffer n tex env.frameBuffer :: post ∧
      (Renderer.reset env w h r).1.frameBuffer = env.frameBuffer ∧
      pre.all (fun c => !c.createdValidFrameBuffer) = true ∧
      post.all (fun c => !c.isCreation) = true := by
  obtain ⟨pre, post, n, tex, heq, hpre, hpost⟩ := createFrameBuffer_calls (F := F) env
  refine ⟨pre, post ++ [Call.onReset (Renderer.reset env w h r).1], n, tex, ?_, ?_, hpre, ?_⟩
  · simp [Renderer.reset, hv, heq]
  · simp [Renderer.reset, hv, heq]
  · rw [List.all_append, hpost]
    simp [Call.isCreation]

theorem resetAll_noCreationAfterValid {F : Type} (resets : List (FrameBufferEnv × Nat × Nat)) :
    ∀ r : Renderer F, noCreationAfterValid (resetAll resets r).2 = true := by
  induction resets with
  | nil => intro r; rfl
  | cons e rest ih =>
    intro r
    obtain ⟨env, w, h⟩ := e
    by_cases hv : isValid r.frameBuffer = true
    · exact noCreationAfterValid_of_all _ (resetAll_valid _ r hv).1
    · obtain ⟨pre, post, n, tex, heq, hfb, hpre, hpost⟩ := reset_invalid_calls env w h r hv
      simp only [resetAll]
      rw [heq, List.append_assoc, noCreationAfterValid_append _ _ hpre]
      by_cases hnew : isValid env.frameBuffer = true
      · have hrest := (resetAll_valid rest (Renderer.reset env w h r).1 (by rw [hfb]; exact hnew)).1
        rw [List.cons_append]
        simp only [noCreationAfterValid, Call.createdValidFrameBuffer, hnew, if_true]
        rw [List.all_append, hpost, hrest]
        rfl
      · have hrest := ih (Renderer.reset env w h r).1
        have hnew2 : isValid env.frameBuffer = false := by simpa using hnew
        rw [List.cons_append]
        simp only [noCreationAfterValid, Call.createdValidFrameBuffer, hnew2]
        rw [if_neg (by decide), noCreationAfterValid_append _ _ ?_]
        · exact hrest
        · simp only [List.all_eq_true, Bool.not_eq_true'] at hpost ⊢
          intro c hcm
          have := hpost c hcm
          cases hcv : c.createdValidFrameBuffer
          · rfl
          · have h2 := createdValid_isCreation c hcv
            simp [h2] at this

/-- C5: `reset` on a renderer whose framebuffer handle is valid makes no texture or
framebuffer creation call and keeps the handle; every `reset` stores its width and
height; a run of `reset` calls from a valid handle creates nothing and keeps the handle;
and in a run of `reset` calls from any state, once a framebuffer creation has returned a
valid handle no further texture or framebuffer is created. -/
theorem reset_creates_lazily {F : Type} :
    (∀ (r : Renderer F) (env : FrameBufferEnv) (w h : Nat), isValid r.frameBuffer = true →
      (Renderer.reset env w h r).2.all (fun c => !c.isCreation) = true ∧
      (Renderer.reset env w h r).1.frameBuffer = r.frameBuffer) ∧
    (∀ (r : Renderer F) (env : FrameBufferEnv) (w h : Nat),
      (Renderer.reset env w h r).1.width = w ∧ (Renderer.reset env w h r).1.height = h) ∧
    (∀ (r : Renderer F) (resets : List (FrameBufferEnv × Nat × Nat)),
      isValid r.frameBuffer = true →
      (resetAll resets r).2.all (fun c => !c.isCreation) = true ∧
      (resetAll resets r).1.frameBuffer = r.frameBuffer) ∧
    (∀ (r : Renderer F) (resets : List (FrameBufferEnv × Nat × Nat))
      (pre post : List (Call F)) (n : Nat) (tex : List Handle) (fb : Handle),
      (resetAll resets r).2 = pre ++ Call.createFrameBuffer n tex fb :: post →
      isValid fb = true → post.all (fun c => !c.isCreation) = true) := by
  refine ⟨?_, ?_, ?_, ?_⟩
  · intro r env w h hv
    have := reset_valid_step env w h r hv
    refine ⟨?_, this.2⟩
    rw [this.1]
    simp [Call.isCreation]
  · intro r env w h
    by_cases hv : isValid r.frameBuffer = true <;> simp [Renderer.reset, hv]
  · intro r resets hv
    exact resetAll_valid resets r hv
  · intro r resets pre post n tex fb heq hv
    have hscan := resetAll_noCreationAfterValid resets r
    rw [heq] at hscan
    exact noCreationAfterValid_split pre post n tex fb hscan hv

/-- C5 at a concrete run: the first `reset` creates the framebuffer, the second one, with
another size, creates nothing, keeps the handle and stores the new size. -/
theorem reset_creates_lazily_witness :
    isValid (Renderer.reset sampleFrameBufferEnv 640 480 sampleRenderer).1.frameBuffer = true ∧
    ((Renderer.reset failingFrameBufferEnv 800 600
        (Renderer.reset sampleFrameBufferEnv 640 480 sampleRenderer).1).2.all
          (fun c => !c.isCreation) = true ∧
      (Renderer.reset failingFrameBufferEnv 800 600
        (Renderer.reset sampleFrameBufferEnv 640 480 sampleRenderer).1).1.frameBuffer =
        (Renderer.reset sampleFrameBufferEnv 640 480 sampleRenderer).1.frameBuffer) :=
  ⟨by decide,
   (reset_creates_lazily (F := F32)).1
     (Renderer.reset sampleFrameBufferEnv 640 480 sampleRenderer).1 failingFrameBufferEnv 800 600
     (by decide)⟩

/-! ## Handles at binding and submission calls -/

theorem reset_preserves_core {F : Type} (env : FrameBufferEnv) (w h : Nat) (r : Renderer F)
    (hc : r.coreValid) : (Renderer.reset env w h r).1.coreValid := by
  by_cases hv : isValid r.frameBuffer = true <;>
    simp [Renderer.reset, hv, Renderer.coreValid] at hc ⊢ <;> exact hc

theorem reset_calls_usesValid {F : Type} (env : FrameBufferEnv) (w h : Nat) (r : Renderer F) :
    (Renderer.reset env w h r).2.all Call.usesValid = true := by
  by_cases hv : isValid r.frameBuffer = true
  · simp [Renderer.reset, hv, Call.usesValid]
  · cases hc : env.colorFormatValid <;> cases hf : isValid env.frameBuffer <;>
      simp [Renderer.reset, hv, Renderer.createFrameBuffer, hc, hf, Call.usesValid]

theorem reset_framebuffer_valid {F : Type} (env : FrameBufferEnv) (w h : Nat) (r : Renderer F)
    (henv : isValid env.frameBuffer = true) :
    isValid (Renderer.reset env w h r).1.frameBuffer = true := by
  by_cases hv : isValid r.frameBuffer = true
  · simp [Renderer.reset, hv]
  · simpa [Renderer.reset, hv, Renderer.createFrameBuffer] using henv

theorem render_preserves_handles {F : Type} (A : FloatOps F) (scene : Scene F) (tex : Handle)
    (dt : F) (r : Renderer F) :
    ((Renderer.render A scene tex dt r).1.coreValid ↔ r.coreValid) ∧
    (Renderer.render A scene tex dt r).1.frameBuffer = r.frameBuffer := by
  cases hl : scene.loaded <;> simp [Renderer.render, hl, Renderer.coreValid]

theorem render_calls_usesValid {F : Type} (A : FloatOps F) (scene : Scene F) (tex : Handle)
    (dt : F) (r : Renderer F) (hc : r.coreValid) (hfb : isValid r.frameBuffer = true) :
    (Renderer.render A scene tex dt r).2.all Call.usesValid = true := by
  obtain ⟨h1, h2, h3, h4, h5⟩ := hc
  cases hl : scene.loaded <;>
    simp [Renderer.render, hl, Renderer.blitToScreen, Call.usesValid, h1, h2, h3, h4, h5, hfb]

theorem runOps_usesValid {F : Type} (A : FloatOps F) (ops : List (Op F)) :
    ∀ r : Renderer F, r.coreValid → isValid r.frameBuffer = true →
      (runOps A ops r).2.all Call.usesValid = true := by
  induction ops with
  | nil => intro r _ _; rfl
  | cons op rest ih =>
    intro r hc hfb
    cases op with
    | reset env w h =>
      simp only [runOps, List.all_append, Bool.and_eq_true]
      refine ⟨reset_calls_usesValid env w h r, ih _ (reset_preserves_core env w h r hc) ?_⟩
      rw [(reset_valid_step env w h r hfb).2]
      exact hfb
    | render scene tex dt =>
      simp only [runOps, List.all_append, Bool.and_eq_true]
      have hp := render_preserves_handles A scene tex dt r
      refine ⟨render_calls_usesValid A scene tex dt r hc hfb, ih _ (hp.1.mpr hc) ?_⟩
      rw [hp.2]
      exact hfb

/-- C10 (as stated, refuted): two lives of a renderer that the host protocol allows and
in which an invalid handle reaches a binding call.  In the first every creation succeeds
but the host renders before any `reset`; in the second the framebuffer creation of the
only `reset` fails.  In both, `blitToScreen` calls `getTexture` on the invalid
framebuffer handle. -/
theorem life_uses_invalid_counterexample :
    sampleInitEnv.allValid = true ∧
    (lifeCalls (f32Ops id) ⟨7⟩ sampleInitEnv
      [Op.render exampleScene ⟨0⟩ F32.half]).all Call.usesValid = false ∧
    (lifeCalls (f32Ops id) ⟨7⟩ sampleInitEnv
      [Op.reset failingFrameBufferEnv 640 480,
       Op.render exampleScene ⟨0⟩ F32.half]).all Call.usesValid = false := by
  refine ⟨by decide, by decide, by decide⟩

/-- C10 (amended): in every life of a renderer in which each creation returns a valid
handle and the host steps do not begin with a `render` (so a `reset` comes before the
first frame), every binding and submission call of `render` and `blitToScreen` gets a
valid handle: the framebuffer read by `getTexture`, the sampler, the exposure and
scene-scale uniforms, the quad vertex buffer and the blit program. -/
theorem life_uses_valid {F : Type} (A : FloatOps F) (quadVB0 : Handle) (env : InitEnv)
    (ops : List (Op F)) (hinit : env.allValid = true)
    (hcreate : ops.all Op.creationValid = true) (hstart : startsWithReset ops = true) :
    (lifeCalls A quadVB0 env ops).all Call.usesValid = true := by
  simp only [InitEnv.allValid, Bool.and_eq_true] at hinit
  obtain ⟨⟨⟨⟨⟨h1, h2⟩, h3⟩, h4⟩, h5⟩, h6⟩ := hinit
  have hcore : ( Renderer.initialize A env (Renderer.new A quadVB0)).1.coreValid := by
    simp [ Renderer.initialize, Renderer.coreValid, h1, h3, h4, h5, h6]
  have hshut : ∀ r : Renderer F, (Renderer.shutdown r).2.all Call.usesValid = true := by
    intro r
    by_cases hv : isValid r.frameBuffer = true <;> simp [Renderer.shutdown, hv, Call.usesValid]
  have hinitCalls : ( Renderer.initialize A env (Renderer.new A quadVB0)).2.all Call.usesValid
      = true := by
    simp [ Renderer.initialize, Call.usesValid]
  simp only [lifeCalls, List.all_append, Bool.and_eq_true]
  refine ⟨⟨hinitCalls, ?_⟩, hshut _⟩
  cases ops with
  | nil => rfl
  | cons op rest =>
    cases op with
    | render scene tex dt => simp [startsWithReset] at hstart
    | reset fenv w h =>
      simp only [List.all_cons, Bool.and_eq_true, Op.creationValid] at hcreate
      simp only [runOps, List.all_append, Bool.and_eq_true]
      exact ⟨reset_calls_usesValid fenv w h _,
        runOps_usesValid A rest _ (reset_preserves_core fenv w h _ hcore)
          (reset_framebuffer_valid fenv w h _ hcreate.1)⟩

/-- C10 (amended) at a concrete life: initialise, reset, render the example scene, shut
down, with every creation succeeding. -/
theorem life_uses_valid_witness :
    sampleInitEnv.allValid = true ∧
    (lifeCalls (f32Ops id) ⟨7⟩ sampleInitEnv
      [Op.reset sampleFrameBufferEnv 640 480,
       Op.render exampleScene ⟨0⟩ F32.half]).all Call.usesValid = true :=
  ⟨by decide,
   life_uses_valid (f32Ops id) ⟨7⟩ sampleInitEnv
     [Op.reset sampleFrameBufferEnv 640 480, Op.render exampleScene ⟨0⟩ F32.half]
     (by decide) (by decide) (by decide)⟩


/-! ## Binary32 rounding is monotone -/

namespace F32

theorem log2Fuel_eq (fuel : Nat) : ∀ n : Nat, n ≤ fuel → log2Fuel fuel n = Nat.log 2 n := by
  induction fuel with
  | zero =>
    intro n h
    have h0 : n = 0 := by omega
    subst h0
    simp [log2Fuel]
  | succ f ih =>
    intro n h
    by_cases h2 : n < 2
    · simp only [log2Fuel, h2, if_true]
      exact (Nat.log_of_lt h2).symm
    · simp only [log2Fuel, h2, if_false]
      have hn : 2 ≤ n := by omega
      rw [ih (n / 2) (by omega)]
      exact (Nat.log_of_one_lt_of_le (by norm_num) hn).symm

theorem ilog2_eq (n : Nat) : ilog2 n = Nat.log 2 n := log2Fuel_eq n n (le_refl n)

theorem div_le_div_of_cross {n1 d1 n2 d2 : Nat} (hd1 : 0 < d1) (hd2 : 0 < d2)
    (h : n1 * d2 ≤ n2 * d1) : n1 / d1 ≤ n2 / d2 := by
  rw [Nat.le_div_iff_mul_le hd2]
  have h1 : n1 / d1 * d1 ≤ n1 := Nat.div_mul_le_self n1 d1
  have h2 : n1 / d1 * d2 * d1 ≤ n2 * d1 := by
    calc n1 / d1 * d2 * d1 = n1 / d1 * d1 * d2 := by ring
      _ ≤ n1 * d2 := Nat.mul_le_mul_right d2 h1
      _ ≤ n2 * d1 := h
  exact Nat.le_of_mul_le_mul_right h2 hd1

theorem roundNearestEven_bounds (n d : Nat) :
    n / d ≤ roundNearestEven n d ∧ roundNearestEven n d ≤ n / d + 1 := by
  unfold roundNearestEven
  simp only
  split_ifs <;> omega

theorem roundNearestEven_mono {n1 d1 n2 d2 : Nat} (hd1 : 0 < d1) (hd2 : 0 < d2)
    (h : n1 * d2 ≤ n2 * d1) : roundNearestEven n1 d1 ≤ roundNearestEven n2 d2 := by
  have hq := div_le_div_of_cross hd1 hd2 h
  rcases Nat.lt_or_ge (n1 / d1) (n2 / d2) with hlt | hge
  · exact le_trans (roundNearestEven_bounds n1 d1).2 (le_trans hlt (roundNearestEven_bounds n2 d2).1)
  · have hm : n1 / d1 = n2 / d2 := le_antisymm hq hge
    have e1 : d1 * (n1 / d1) + n1 % d1 = n1 := Nat.div_add_mod n1 d1
    have e2 : d2 * (n2 / d2) + n2 % d2 = n2 := Nat.div_add_mod n2 d2
    have hr : n1 % d1 * d2 ≤ n2 % d2 * d1 := by
      have : (d1 * (n1 / d1) + n1 % d1) * d2 ≤ (d2 * (n2 / d2) + n2 % d2) * d1 := by
        rw [e1, e2]; exact h
      rw [hm] at this
      nlinarith
    unfold roundNearestEven
    simp only
    rw [hm]
    by_cases hup1 : d1 < 2 * (n1 % d1) ∨ (2 * (n1 % d1) = d1 ∧ n2 / d2 % 2 = 1)
    · have hup2 : d2 < 2 * (n2 % d2) ∨ (2 * (n2 % d2) = d2 ∧ n2 / d2 % 2 = 1) := by
        rcases hup1 with hgt | ⟨heq, hodd⟩
        · left
          have : d1 * d2 < 2 * (n2 % d2) * d1 := by nlinarith
          nlinarith
        · have hle : d2 ≤ 2 * (n2 % d2) := by
            have : d1 * d2 ≤ 2 * (n2 % d2) * d1 := by nlinarith
            nlinarith
          rcases Nat.lt_or_ge d2 (2 * (n2 % d2)) with h3 | h3
          · exact Or.inl h3
          · exact Or.inr ⟨le_antisymm h3 hle, hodd⟩
      rw [if_pos hup1, if_pos hup2]
    · rw [if_neg hup1]
      split_ifs <;> omega

theorem roundUnits_eq (n d : Nat) :
    roundUnits n d =
      roundNearestEven n (d * 2 ^ (Nat.log 2 (n / d) - 23)) * 2 ^ (Nat.log 2 (n / d) - 23) := by
  simp only [roundUnits, ilog2_eq]

theorem significand_lt (n d : Nat) :
    n / (d * 2 ^ (Nat.log 2 (n / d) - 23)) < 2 ^ 24 := by
  rw [← Nat.div_div_eq_div_mul]
  have h1 : n / d < 2 ^ (Nat.log 2 (n / d) + 1) := Nat.lt_pow_succ_log_self (by norm_num) _
  have h2 : 2 ^ (Nat.log 2 (n / d) + 1) ≤ 2 ^ (24 + (Nat.log 2 (n / d) - 23)) :=
    Nat.pow_le_pow_right (by norm_num) (by omega)
  rw [Nat.div_lt_iff_lt_mul (by positivity), ← pow_add]
  exact lt_of_lt_of_le h1 h2

theorem significand_ge (n d : Nat) (hsh : 0 < Nat.log 2 (n / d) - 23) :
    2 ^ 23 ≤ n / (d * 2 ^ (Nat.log 2 (n / d) - 23)) := by
  rw [← Nat.div_div_eq_div_mul]
  have hq : n / d ≠ 0 := by
    intro h0
    rw [h0] at hsh
    simp at hsh
  have h1 : 2 ^ Nat.log 2 (n / d) ≤ n / d := Nat.pow_log_le_self 2 hq
  rw [Nat.le_div_iff_mul_le (by positivity), ← pow_add]
  have : 23 + (Nat.log 2 (n / d) - 23) = Nat.log 2 (n / d) := by omega
  rw [this]
  exact h1

theorem roundUnits_mono {n1 d1 n2 d2 : Nat} (hd1 : 0 < d1) (hd2 : 0 < d2)
    (h : n1 * d2 ≤ n2 * d1) : roundUnits n1 d1 ≤ roundUnits n2 d2 := by
  rw [roundUnits_eq, roundUnits_eq]
  have hq := div_le_div_of_cross hd1 hd2 h
  have hlog : Nat.log 2 (n1 / d1) ≤ Nat.log 2 (n2 / d2) := Nat.log_mono_right hq
  set s1 := Nat.log 2 (n1 / d1) - 23 with hs1
  set s2 := Nat.log 2 (n2 / d2) - 23 with hs2
  rcases Nat.lt_or_ge s1 s2 with hlt | hge
  · have hm1 := significand_lt n1 d1
    have hm2 := significand_ge n2 d2 (by omega)
    rw [← hs1] at hm1
    rw [← hs2] at hm2
    have hb1 := (roundNearestEven_bounds n1 (d1 * 2 ^ s1)).2
    have hb2 := (roundNearestEven_bounds n2 (d2 * 2 ^ s2)).1
    calc roundNearestEven n1 (d1 * 2 ^ s1) * 2 ^ s1
        ≤ 2 ^ 24 * 2 ^ s1 := Nat.mul_le_mul_right _ (by omega)
      _ = 2 ^ 23 * 2 ^ (s1 + 1) := by rw [pow_succ]; ring
      _ ≤ 2 ^ 23 * 2 ^ s2 :=
          Nat.mul_le_mul_left _ (Nat.pow_le_pow_right (by norm_num) (by omega))
      _ ≤ roundNearestEven n2 (d2 * 2 ^ s2) * 2 ^ s2 := Nat.mul_le_mul_right _ (by omega)
  · have hs : s1 = s2 := by omega
    rw [hs]
    apply Nat.mul_le_mul_right
    apply roundNearestEven_mono (by positivity) (by positivity)
    calc n1 * (d2 * 2 ^ s2) = n1 * d2 * 2 ^ s2 := by ring
      _ ≤ n2 * d1 * 2 ^ s2 := Nat.mul_le_mul_right _ h
      _ = n2 * (d1 * 2 ^ s2) := by ring

theorem ofRatio_nonneg (n d : Nat) : (ofRatio false n d).isNonNeg = true := by
  unfold ofRatio
  simp only
  split_ifs <;> rfl

theorem ofRatio_mono {n1 d1 n2 d2 : Nat} (hd1 : 0 < d1) (hd2 : 0 < d2)
    (h : n1 * d2 ≤ n2 * d1) : le (ofRatio false n1 d1) (ofRatio false n2 d2) = true := by
  have hr := roundUnits_mono hd1 hd2 h
  unfold ofRatio
  simp only
  by_cases h1 : overflow ≤ roundUnits n1 d1
  · have h2 : overflow ≤ roundUnits n2 d2 := le_trans h1 hr
    simp [h1, h2, le]
  · by_cases h2 : overflow ≤ roundUnits n2 d2
    · simp [h1, h2, le]
    · simp [h1, h2, le, signed, hr]

theorem zero_le_of_nonneg (x : F32) (hx : x.isNonNeg = true) : le (fin false 0) x = true := by
  cases x with
  | nan => simp [isNonNeg] at hx
  | inf s => cases s <;> simp_all [isNonNeg, le]
  | fin s k => cases s <;> simp_all [isNonNeg, le, signed]

theorem div_pos_nonneg (x : F32) (c : Nat) (hc : 0 < c) (hx : x.isNonNeg = true) :
    (div x (fin false c)).isNonNeg = true := by
  have hc0 : c ≠ 0 := by omega
  cases x with
  | nan => simp [isNonNeg] at hx
  | inf s => cases s <;> simp_all [isNonNeg, div]
  | fin s k =>
    cases s
    · simp [div, hc0, ofRatio_nonneg]
    · simp [isNonNeg] at hx

theorem mul_pos_nonneg (x : F32) (c : Nat) (hc : 0 < c) (hx : x.isNonNeg = true) :
    (mul x (fin false c)).isNonNeg = true := by
  have hc0 : c ≠ 0 := by omega
  cases x with
  | nan => simp [isNonNeg] at hx
  | inf s => cases s <;> simp_all [isNonNeg, mul]
  | fin s k =>
    cases s
    · simp [mul, ofRatio_nonneg]
    · simp [isNonNeg] at hx

theorem le_inf_of_nonneg (x : F32) (hx : x.isNonNeg = true) : le x (inf false) = true := by
  cases x with
  | nan => simp [isNonNeg] at hx
  | inf s => cases s <;> simp_all [isNonNeg, le]
  | fin s k => simp [le]

theorem div_pos_mono (x y : F32) (c : Nat) (hc : 0 < c) (hx : x.isNonNeg = true)
    (hy : y.isNonNeg = true) (hxy : le x y = true) :
    le (div x (fin false c)) (div y (fin false c)) = true := by
  have hc0 : c ≠ 0 := by omega
  cases y with
  | nan => simp [isNonNeg] at hy
  | inf t =>
    cases t
    · have : div (inf false) (fin false c) = inf false := by simp [div]
      rw [this]
      exact le_inf_of_nonneg _ (div_pos_nonneg x c hc hx)
    · simp [isNonNeg] at hy
  | fin t b =>
    cases t
    · cases x with
      | nan => simp [isNonNeg] at hx
      | inf s => cases s <;> simp_all [isNonNeg, le]
      | fin s a =>
        cases s
        · have hab : a ≤ b := by simpa [le, signed] using hxy
          simp only [div, hc0, if_false, Bool.xor_false]
          exact ofRatio_mono hc hc
            (Nat.mul_le_mul_right c (Nat.mul_le_mul_right one hab))
        · simp [isNonNeg] at hx
    · simp [isNonNeg] at hy

theorem mul_pos_mono (x y : F32) (c : Nat) (hc : 0 < c) (hx : x.isNonNeg = true)
    (hy : y.isNonNeg = true) (hxy : le x y = true) :
    le (mul x (fin false c)) (mul y (fin false c)) = true := by
  have hc0 : c ≠ 0 := by omega
  cases y with
  | nan => simp [isNonNeg] at hy
  | inf t =>
    cases t
    · have : mul (inf false) (fin false c) = inf false := by simp [mul, hc0]
      rw [this]
      exact le_inf_of_nonneg _ (mul_pos_nonneg x c hc hx)
    · simp [isNonNeg] at hy
  | fin t b =>
    cases t
    · cases x with
      | nan => simp [isNonNeg] at hx
      | inf s => cases s <;> simp_all [isNonNeg, le]
      | fin s a =>
        cases s
        · have hab : a ≤ b := by simpa [le, signed] using hxy
          simp only [mul, Bool.xor_false]
          have hone : 0 < one := by unfold one; positivity
          exact ofRatio_mono hone hone
            (Nat.mul_le_mul_right one (Nat.mul_le_mul_right c hab))
        · simp [isNonNeg] at hx
    · simp [isNonNeg] at hy

theorem div_antitone (a k1 k2 : Nat) (h1 : 0 < k1) (h12 : k1 ≤ k2) :
    le (div (fin false a) (fin false k2)) (div (fin false a) (fin false k1)) = true := by
  have hk1 : k1 ≠ 0 := by omega
  have hk2 : k2 ≠ 0 := by omega
  simp only [div, hk1, hk2, if_false, Bool.xor_false]
  exact ofRatio_mono (by omega) h1 (Nat.mul_le_mul_left (a * one) h12)

theorem ofInt_one : ofInt 1 = fin false one := by decide!

theorem sqrt_two : sqrt (ofInt 2) = fin false (11863283 * 2 ^ 126) := by decide!

end F32

/-! ## Scale law on binary32 -/

theorem scale_f32 (srgb : F32 → F32) (s : Scene F32) (tex : Handle) (dt : F32)
    (r : Renderer F32) (k z : Nat) (hl : s.loaded = true)
    (he : largestExtent (f32Ops srgb) s = F32.fin false k)
    (hz : s.camera.zFar = F32.fin false z) :
    (Renderer.render (f32Ops srgb) s tex dt r).1.scale =
      F32.mul (F32.div (F32.div (F32.fin false F32.one) (F32.fin false k))
        (F32.fin false (11863283 * 2 ^ 126))) (F32.fin false z) := by
  have h : (Renderer.render (f32Ops srgb) s tex dt r).1.scale = sceneScale (f32Ops srgb) s := by
    simp [Renderer.render, hl]
  rw [h]
  unfold sceneScale
  rw [he, hz]
  simp only [f32Ops, F32.ofInt_one, F32.sqrt_two]

set_option maxRecDepth 100000 in
/-- C2 (as stated, refuted) on binary32.  The extents `0x3FFFFFFE` (1.99999976) and
`0x3FFFFFFF` (1.99999988) with far plane 100 are different, yet both give the scale
`0x420D6BDF` (35.355343): the scale is not strictly decreasing.  The extent `2^127` with
far plane `2^-30` gives the scale zero: the scale is not strictly positive. -/
theorem scale_strict_counterexample :
    largestExtent (f32Ops id)
      (sampleScene true (F32.ofInt 0) (F32.ofBits 0x3FFFFFFE) (F32.ofInt 100) (F32.ofInt 0))
      = F32.ofBits 0x3FFFFFFE ∧
    largestExtent (f32Ops id)
      (sampleScene true (F32.ofInt 0) (F32.ofBits 0x3FFFFFFF) (F32.ofInt 100) (F32.ofInt 0))
      = F32.ofBits 0x3FFFFFFF ∧
    F32.lt (F32.ofBits 0x3FFFFFFE) (F32.ofBits 0x3FFFFFFF) = true ∧
    (Renderer.render (f32Ops id)
      (sampleScene true (F32.ofInt 0) (F32.ofBits 0x3FFFFFFE) (F32.ofInt 100) (F32.ofInt 0))
      ⟨0⟩ F32.half sampleRenderer).1.scale = F32.ofBits 0x420D6BDF ∧
    (Renderer.render (f32Ops id)
      (sampleScene true (F32.ofInt 0) (F32.ofBits 0x3FFFFFFF) (F32.ofInt 100) (F32.ofInt 0))
      ⟨0⟩ F32.half sampleRenderer).1.scale = F32.ofBits 0x420D6BDF ∧
    largestExtent (f32Ops id)
      (sampleScene true (F32.ofInt 0) (F32.ofBits 0x7F000000) (F32.ofBits 0x30800000)
        (F32.ofInt 0)) = F32.ofBits 0x7F000000 ∧
    F32.lt (F32.ofInt 0) (F32.ofBits 0x7F000000) = true ∧
    F32.lt (F32.ofInt 0) (F32.ofBits 0x30800000) = true ∧
    (Renderer.render (f32Ops id)
      (sampleScene true (F32.ofInt 0) (F32.ofBits 0x7F000000) (F32.ofBits 0x30800000)
        (F32.ofInt 0)) ⟨0⟩ F32.half sampleRenderer).1.scale = F32.ofInt 0 := by
  decide!

/-- C2 (amended) on binary32: for loaded scenes whose largest extent and far plane are
finite and positive, the scale that `render` computes is never negative (it compares
`>= 0` and is not a NaN), and for one far plane a scene with the larger extent never gets
the larger scale: `e1 <= e2` gives `scale e2 <= scale e1`. -/
theorem scale_nonneg_antitone (srgb : F32 → F32) (s1 s2 : Scene F32) (tex1 tex2 : Handle)
    (dt1 dt2 : F32) (r1 r2 : Renderer F32) (k1 k2 z : Nat)
    (hl1 : s1.loaded = true) (hl2 : s2.loaded = true)
    (he1 : largestExtent (f32Ops srgb) s1 = F32.fin false k1)
    (he2 : largestExtent (f32Ops srgb) s2 = F32.fin false k2)
    (hz1 : s1.camera.zFar = F32.fin false z) (hz2 : s2.camera.zFar = F32.fin false z)
    (hk1 : 0 < k1) (hk : k1 ≤ k2) (hz : 0 < z) :
    F32.le (F32.fin false 0) (Renderer.render (f32Ops srgb) s1 tex1 dt1 r1).1.scale = true ∧
    F32.le (F32.fin false 0) (Renderer.render (f32Ops srgb) s2 tex2 dt2 r2).1.scale = true ∧
    F32.le (Renderer.render (f32Ops srgb) s2 tex2 dt2 r2).1.scale
      (Renderer.render (f32Ops srgb) s1 tex1 dt1 r1).1.scale = true := by
  rw [scale_f32 srgb s1 tex1 dt1 r1 k1 z hl1 he1 hz1, scale_f32 srgb s2 tex2 dt2 r2 k2 z hl2 he2 hz2]
  have hS : 0 < 11863283 * 2 ^ 126 := by positivity
  have hn : ∀ k : Nat, 0 < k →
      (F32.div (F32.fin false F32.one) (F32.fin false k)).isNonNeg = true := by
    intro k hk0
    exact F32.div_pos_nonneg _ k hk0 rfl
  have hn1 := F32.div_pos_nonneg _ _ hS (hn k1 hk1)
  have hn2 := F32.div_pos_nonneg _ _ hS (hn k2 (by omega))
  refine ⟨F32.zero_le_of_nonneg _ (F32.mul_pos_nonneg _ z hz hn1),
    F32.zero_le_of_nonneg _ (F32.mul_pos_nonneg _ z hz hn2), ?_⟩
  exact F32.mul_pos_mono _ _ z hz hn2 hn1
    (F32.div_pos_mono _ _ _ hS (hn k2 (by omega)) (hn k1 hk1)
      (F32.div_antitone F32.one k1 k2 hk1 hk))

set_option maxRecDepth 100000 in
/-- C2 (amended) at a concrete pair: extents 2 and 4 with far plane 100. -/
theorem scale_nonneg_antitone_witness :
    F32.le (F32.fin false 0)
      (Renderer.render (f32Ops id) exampleScene ⟨0⟩ F32.half sampleRenderer).1.scale = true ∧
    F32.le (F32.fin false 0)
      (Renderer.render (f32Ops id)
        (sampleScene true (F32.ofInt (-2)) (F32.ofInt 2) (F32.ofInt 100) (F32.ofInt 0))
        ⟨0⟩ F32.half sampleRenderer).1.scale = true ∧
    F32.le
      (Renderer.render (f32Ops id)
        (sampleScene true (F32.ofInt (-2)) (F32.ofInt 2) (F32.ofInt 100) (F32.ofInt 0))
        ⟨0⟩ F32.half sampleRenderer).1.scale
      (Renderer.render (f32Ops id) exampleScene ⟨0⟩ F32.half sampleRenderer).1.scale = true :=
  scale_nonneg_antitone id exampleScene
    (sampleScene true (F32.ofInt (-2)) (F32.ofInt 2) (F32.ofInt 100) (F32.ofInt 0))
    ⟨0⟩ ⟨0⟩ F32.half F32.half sampleRenderer sampleRenderer
    (2 * F32.one) (4 * F32.one) (100 * F32.one) rfl rfl (by decide!) (by decide!) (by decide!)
    (by decide!) (by decide) (by decide) (by decide)

/-! ## Clear colour -/

theorem or_255_mod (y : Nat) : (y ||| 255) % 256 = 255 := by
  have h : (y ||| (2 ^ 8 - 1)) % 2 ^ 8 = 2 ^ 8 - 1 := by
    apply Nat.eq_of_testBit_eq
    intro i
    rw [Nat.testBit_mod_two_pow, Nat.testBit_or, Nat.testBit_two_pow_sub_one]
    by_cases hi : i < 8 <;> simp [hi]
  exact h

theorem packClearColor_alpha (r g b : Nat) : packClearColor r g b % 256 = 255 := by
  unfold packClearColor
  rw [Nat.mod_mod_of_dvd _ (by norm_num : 256 ∣ 4294967296)]
  exact or_255_mod _

theorem packClearColor_eq (r g b : Nat) (hr : r < 256) (hg : g < 256) (hb : b < 256) :
    packClearColor r g b = ((r <<< 24) ||| (g <<< 16) ||| (b <<< 8) ||| 255) ∧
    packClearColor r g b < 4294967296 := by
  have hlt : ((r <<< 24) ||| (g <<< 16) ||| (b <<< 8) ||| 255) < 4294967296 := by
    have h32 : (4294967296 : Nat) = 2 ^ 32 := by norm_num
    rw [h32]
    refine Nat.or_lt_two_pow (Nat.or_lt_two_pow (Nat.or_lt_two_pow ?_ ?_) ?_) (by norm_num)
    · rw [Nat.shiftLeft_eq]; omega
    · rw [Nat.shiftLeft_eq]; omega
    · rw [Nat.shiftLeft_eq]; omega
  unfold packClearColor
  rw [Nat.mod_eq_of_lt hlt]
  exact ⟨rfl, hlt⟩

theorem skyChannel_lt {F : Type} (A : FloatOps F) (c : F) : skyChannel A c < 256 :=
  Nat.mod_lt _ (by norm_num)

theorem render_clearColor_loaded {F : Type} (A : FloatOps F) (scene : Scene F) (tex : Handle)
    (dt : F) (r : Renderer F) (hl : scene.loaded = true) :
    (Renderer.render A scene tex dt r).1.clearColor =
      packClearColor (skyChannel A scene.skyColor.x) (skyChannel A scene.skyColor.y)
        (skyChannel A scene.skyColor.z) := by
  simp [Renderer.render, hl]

namespace F32

theorem ofInt_zero : ofInt 0 = fin false 0 := by decide!

theorem ofInt_255 : ofInt 255 = fin false (255 * one) := by decide!

theorem ofBits_threshold : ofBits 0x3F7F8000 = fin false (511 * 2 ^ 140) := by decide!

/-- A sky component that the conversion maps to zero quantises to 0. -/
theorem channel_black (srgb : F32 → F32) (c : F32) (h : srgb c = ofInt 0) :
    skyChannel (f32Ops srgb) c = 0 := by
  have : skyChannel (f32Ops srgb) c =
      toU8 (round (mul (clamp (srgb c) (ofInt 0) (ofInt 1)) (ofInt 255))) % 256 := by
    simp only [skyChannel, f32Ops]
  rw [this, h]
  decide!

theorem lt_pos (a b : Nat) : lt (fin false a) (fin false b) = decide (a < b) := by
  simp [lt, signed]

theorem le_pos (a b : Nat) : le (fin false a) (fin false b) = decide (a ≤ b) := by
  simp [le, signed]

theorem clamp_unit (x : F32) (h : le (fin false (511 * 2 ^ 140)) x = true) :
    ∃ a : Nat, clamp x (ofInt 0) (ofInt 1) = fin false a ∧ 511 * 2 ^ 140 ≤ a ∧ a ≤ one := by
  rw [ofInt_zero, ofInt_one]
  have hC : 511 * 2 ^ 140 ≤ one := by unfold one; norm_num
  cases x with
  | nan => simp [le] at h
  | inf s =>
    cases s
    · exact ⟨one, by simp [clamp, max, min, lt], hC, le_refl _⟩
    · simp [le] at h
  | fin s a =>
    cases s
    · have ha : 511 * 2 ^ 140 ≤ a := by simpa [le_pos] using h
      by_cases h1 : one < a
      · exact ⟨one, by simp [clamp, max, min, lt_pos, h1], hC, le_refl _⟩
      · exact ⟨a, by simp [clamp, max, min, lt_pos, h1], ha, by omega⟩
    · exfalso
      simp only [le, signed, decide_eq_true_eq] at h
      have : (0 : Int) < 511 * 2 ^ 140 := by positivity
      have h2 : -(a : Int) ≤ 0 := by omega
      simp at h
      omega

theorem mul_255 (a : Nat) (h1 : 511 * 2 ^ 140 ≤ a) (h2 : a ≤ one) :
    ∃ b : Nat, mul (fin false a) (ofInt 255) = fin false b ∧
      130305 * 2 ^ 140 ≤ b ∧ b ≤ 255 * one := by
  rw [ofInt_255]
  have hone : 0 < one := by unfold one; positivity
  have hlo : roundUnits (511 * 2 ^ 140 * (255 * one)) one ≤ roundUnits (a * (255 * one)) one :=
    roundUnits_mono hone hone
      (Nat.mul_le_mul_right one (Nat.mul_le_mul_right (255 * one) h1))
  have hhi : roundUnits (a * (255 * one)) one ≤ roundUnits (one * (255 * one)) one :=
    roundUnits_mono hone hone
      (Nat.mul_le_mul_right one (Nat.mul_le_mul_right (255 * one) h2))
  have e1 : roundUnits (511 * 2 ^ 140 * (255 * one)) one = 130305 * 2 ^ 140 := by decide!
  have e2 : roundUnits (one * (255 * one)) one = 255 * one := by decide!
  rw [e1] at hlo
  rw [e2] at hhi
  have hov : ¬ overflow ≤ roundUnits (a * (255 * one)) one := by
    have : 255 * one < overflow := by decide!
    omega
  exact ⟨roundUnits (a * (255 * one)) one, by simp [mul, ofRatio, hov], hlo, hhi⟩

theorem round_255 (b : Nat) (h1 : 130305 * 2 ^ 140 ≤ b) (h2 : b ≤ 255 * one) :
    toU8 (round (fin false b)) = 255 := by
  have hov : ¬ overflow ≤ b := by
    have : 255 * one < overflow := by decide!
    omega
  have hq : (b + 2 ^ 148) / one = 255 := by
    unfold one at h2 ⊢
    norm_num at h1 h2 ⊢
    omega
  simp only [round, hov, if_false, toU8, hq]
  have hone : 0 < one := by unfold one; positivity
  rw [Nat.mul_div_cancel _ hone]
  simp

/-- A sky component that the conversion maps to at least `511/512` quantises to 255. -/
theorem channel_white (srgb : F32 → F32) (c : F32)
    (h : le (ofBits 0x3F7F8000) (srgb c) = true) : skyChannel (f32Ops srgb) c = 255 := by
  have hdef : skyChannel (f32Ops srgb) c =
      toU8 (round (mul (clamp (srgb c) (ofInt 0) (ofInt 1)) (ofInt 255))) % 256 := by
    simp only [skyChannel, f32Ops]
  rw [ofBits_threshold] at h
  obtain ⟨a, ha, ha1, ha2⟩ := clamp_unit (srgb c) h
  obtain ⟨b, hb, hb1, hb2⟩ := mul_255 a ha1 ha2
  rw [hdef, ha, hb, round_255 b hb1 hb2]

end F32

/-- C4: for a loaded scene `render` packs the three quantised sky components and the
alpha 255 into the 32-bit clear colour `(R << 24) | (G << 16) | (B << 8) | 255`, each
component being `round(clamp(convertSRGBToLinear c, 0, 1) * 255)` stored in a byte; the
low eight bits are 255 for every sky colour.  On binary32, a sky colour `(0,0,0)` gives
exactly `0x000000FF` when the conversion maps 0 to 0, and a sky colour `(1,1,1)` gives
exactly `0xFFFFFFFF` when the conversion maps 1 to a value of at least `511/512`. -/
theorem clearColor_law :
    (∀ {F : Type} (A : FloatOps F) (scene : Scene F) (tex : Handle) (dt : F) (r : Renderer F),
      scene.loaded = true →
      (Renderer.render A scene tex dt r).1.clearColor =
        ((skyChannel A scene.skyColor.x <<< 24) ||| (skyChannel A scene.skyColor.y <<< 16) |||
          (skyChannel A scene.skyColor.z <<< 8) ||| 255) ∧
      (∀ c : F, skyChannel A c =
        A.toU8 (A.round (A.mul (A.clamp (A.convertSRGBToLinear c) (A.ofInt 0) (A.ofInt 1))
          (A.ofInt 255))) % 256) ∧
      (Renderer.render A scene tex dt r).1.clearColor < 4294967296 ∧
      (Renderer.render A scene tex dt r).1.clearColor % 256 = 255) ∧
    (∀ (srgb : F32 → F32) (scene : Scene F32) (tex : Handle) (dt : F32) (r : Renderer F32),
      scene.loaded = true →
      scene.skyColor.x = F32.ofInt 0 → scene.skyColor.y = F32.ofInt 0 →
      scene.skyColor.z = F32.ofInt 0 →
      srgb (F32.ofInt 0) = F32.ofInt 0 →
      (Renderer.render (f32Ops srgb) scene tex dt r).1.clearColor = 0x000000FF) ∧
    (∀ (srgb : F32 → F32) (scene : Scene F32) (tex : Handle) (dt : F32) (r : Renderer F32),
      scene.loaded = true →
      scene.skyColor.x = F32.ofInt 1 → scene.skyColor.y = F32.ofInt 1 →
      scene.skyColor.z = F32.ofInt 1 →
      F32.le (F32.ofBits 0x3F7F8000) (srgb (F32.ofInt 1)) = true →
      (Renderer.render (f32Ops srgb) scene tex dt r).1.clearColor = 0xFFFFFFFF) := by
  refine ⟨?_, ?_, ?_⟩
  · intro F A scene tex dt r hl
    rw [render_clearColor_loaded A scene tex dt r hl]
    have hp := packClearColor_eq _ _ _ (skyChannel_lt A scene.skyColor.x)
      (skyChannel_lt A scene.skyColor.y) (skyChannel_lt A scene.skyColor.z)
    exact ⟨hp.1, fun _ => rfl, hp.2, packClearColor_alpha _ _ _⟩
  · intro srgb scene tex dt r hl hx hy hz h0
    rw [render_clearColor_loaded _ scene tex dt r hl, hx, hy, hz,
      F32.channel_black srgb _ h0]
    rfl
  · intro srgb scene tex dt r hl hx hy hz h1
    rw [render_clearColor_loaded _ scene tex dt r hl, hx, hy, hz,
      F32.channel_white srgb _ h1]
    rfl

set_option maxRecDepth 100000 in
/-- C4 at concrete scenes: a black and a white sky, with the identity as conversion. -/
theorem clearColor_law_witness :
    (Renderer.render (f32Ops id)
      (sampleScene true (F32.ofInt (-1)) (F32.ofInt 1) (F32.ofInt 100) (F32.ofInt 0))
      ⟨0⟩ F32.half sampleRenderer).1.clearColor = 0x000000FF ∧
    (Renderer.render (f32Ops id)
      (sampleScene true (F32.ofInt (-1)) (F32.ofInt 1) (F32.ofInt 100) (F32.ofInt 1))
      ⟨0⟩ F32.half sampleRenderer).1.clearColor = 0xFFFFFFFF ∧
    (Renderer.render (f32Ops id)
      (sampleScene true (F32.ofInt (-1)) (F32.ofInt 1) (F32.ofInt 100) (F32.ofInt 1))
      ⟨0⟩ F32.half sampleRenderer).1.clearColor % 256 = 255 :=
  ⟨clearColor_law.2.1 id
      (sampleScene true (F32.ofInt (-1)) (F32.ofInt 1) (F32.ofInt 100) (F32.ofInt 0))
      ⟨0⟩ F32.half sampleRenderer rfl rfl rfl rfl rfl,
   clearColor_law.2.2 id
      (sampleScene true (F32.ofInt (-1)) (F32.ofInt 1) (F32.ofInt 100) (F32.ofInt 1))
      ⟨0⟩ F32.half sampleRenderer rfl rfl rfl rfl (by decide!),
   (clearColor_law.1 (f32Ops id)
      (sampleScene true (F32.ofInt (-1)) (F32.ofInt 1) (F32.ofInt 100) (F32.ofInt 1))
      ⟨0⟩ F32.half sampleRenderer rfl).2.2.2⟩

end Cluster
